import Mathlib

/-!
Shallow embedding of the client-side scripts of the portfolio repository
(the version 2.0.0 modular sources: validation.js, security.js,
projects.js, notifications.js, language.js, email.js) together with
proofs of the specification claims about them.

JavaScript strings are modelled as `List Char`; nullable / optional
arguments as `Option`; DOM elements, timers and the email environment as
explicit state records.  Built-in JavaScript operations used by the code
(`trim`, `encodeURIComponent`, the regular expressions, `classList`,
`setTimeout` / `clearTimeout`) are translated from their ECMAScript
semantics at the uses the code makes of them.
-/

/-- JavaScript strings are modelled as lists of characters. -/
abbrev JStr := List Char

/-- The ECMAScript whitespace class: the characters matched by the regex
class `\s` and removed by `String.prototype.trim` (WhiteSpace together
with LineTerminator). -/
def isJsWhitespace (c : Char) : Bool :=
  c = ' ' || c = '\t' || c = '\n' || c = '\r' ||
  c = Char.ofNat 0x0B || c = Char.ofNat 0x0C || c = Char.ofNat 0xA0 ||
  c = Char.ofNat 0x1680 ||
  (0x2000 ≤ c.toNat && c.toNat ≤ 0x200A) ||
  c = Char.ofNat 0x2028 || c = Char.ofNat 0x2029 || c = Char.ofNat 0x202F ||
  c = Char.ofNat 0x205F || c = Char.ofNat 0x3000 || c = Char.ofNat 0xFEFF

/-- `String.prototype.trim`: strip leading and trailing whitespace. -/
def trimJs (cs : JStr) : JStr :=
  ((cs.dropWhile isJsWhitespace).reverse.dropWhile isJsWhitespace).reverse

/-- The test `!s || s.trim() === ''` applied to a nullable string field
(used by validateContactForm for every blankness check). -/
def fieldBlank : Option JStr → Bool
  | none => true
  | some s => s.isEmpty || (trimJs s).isEmpty

/-- One character of the class `[^\s@]` of the e-mail regular
expression: not whitespace and not an at sign. -/
def validLocalChar (c : Char) : Bool := !isJsWhitespace c && c ≠ '@'

/-- Split a list at the first occurrence of `sep`; `none` when `sep`
does not occur. -/
def splitAtChar (sep : Char) : JStr → Option (JStr × JStr)
  | [] => none
  | c :: rest =>
    if c = sep then some ([], rest)
    else (splitAtChar sep rest).map (fun p => (c :: p.1, p.2))

/-- Is there a `.` with at least one character on each side?  Together
with the character-class checks this captures the `[^\s@]+\.[^\s@]+`
part of the e-mail pattern (the dot itself belongs to `[^\s@]`, so a
match exists exactly when some interior position holds a dot). -/
def hasInteriorDot (cs : JStr) : Bool :=
  (List.range cs.length).any (fun i =>
    decide (cs.get? i = some '.') && decide (0 < i) && decide (i + 1 < cs.length))

/-- The anchored test `/^[^\s@]+@[^\s@]+\.[^\s@]+$/.test cs`.  Because
`[^\s@]` never matches `@`, the `@` consumed by the pattern is forced to
be the first `@` of the string, and the remainder must consist of
`[^\s@]` characters with a dot strictly inside it. -/
def emailRegexTest (cs : JStr) : Bool :=
  match splitAtChar '@' cs with
  | none => false
  | some (loc, dom) =>
    !loc.isEmpty && loc.all validLocalChar &&
    !dom.isEmpty && dom.all validLocalChar && hasInteriorDot dom

/-- `isValidEmail` from validation.js: guard on a null or empty
argument, then test the trimmed input against the e-mail pattern. -/
def isValidEmail : Option JStr → Bool
  | none => false
  | some s => !s.isEmpty && emailRegexTest (trimJs s)

/-- `[0-9]` -/
def isDigitChar (c : Char) : Bool := '0' ≤ c && c ≤ '9'

/-- `[1-9]` -/
def isNonZeroDigit (c : Char) : Bool := '1' ≤ c && c ≤ '9'

/-- The characters removed before phone validation:
`phone.replace(/[\s\-\.()]/g, '')`. -/
def phoneStripChar (c : Char) : Bool :=
  isJsWhitespace c || c = '-' || c = '.' || c = '(' || c = ')'

/-- `[0-9]{lo,hi}` matched against the whole list. -/
def digitsBetween (lo hi : Nat) (cs : JStr) : Bool :=
  decide (lo ≤ cs.length) && decide (cs.length ≤ hi) && cs.all isDigitChar

/-- First alternative of the phone pattern: `\+33[1-9][0-9]{8}`. -/
def phoneAltFr (cs : JStr) : Bool :=
  match cs with
  | '+' :: '3' :: '3' :: d :: rest => isNonZeroDigit d && digitsBetween 8 8 rest
  | _ => false

/-- Second alternative of the phone pattern: `0[1-9][0-9]{8}`. -/
def phoneAltNat (cs : JStr) : Bool :=
  match cs with
  | '0' :: d :: rest => isNonZeroDigit d && digitsBetween 8 8 rest
  | _ => false

/-- Third alternative of the phone pattern:
`\+[1-9][0-9]{1,2}[0-9]{6,14}`; the split between the two bounded
quantifiers is searched explicitly. -/
def phoneAltIntl (cs : JStr) : Bool :=
  match cs with
  | '+' :: d :: rest =>
    isNonZeroDigit d &&
    ([1, 2].any (fun k =>
      decide (k ≤ rest.length) && (rest.take k).all isDigitChar &&
      digitsBetween 6 14 (rest.drop k)))
  | _ => false

/-- `isValidPhoneNumber` from validation.js: guard on a null or empty
argument, strip separators, and test the anchored alternation
`/^(\+33[1-9][0-9]{8}|0[1-9][0-9]{8}|\+[1-9][0-9]{1,2}[0-9]{6,14})$/`. -/
def isValidPhoneNumber : Option JStr → Bool
  | none => false
  | some s =>
    !s.isEmpty &&
    (let cleaned := s.filter (fun c => !phoneStripChar c)
     phoneAltFr cleaned || phoneAltNat cleaned || phoneAltIntl cleaned)

/-- The record returned by `validateContactForm` on success. -/
structure ContactSubmission where
  success : Bool
  name : JStr
  email : JStr
  phoneNumber : JStr
  company : JStr
  finalComment : JStr
  deriving DecidableEq, Repr

/-- Outcome of the validation pipeline: either the `false` return value
of validateContactForm (carrying the message passed to `showError` on
the failing rule) or the submission record. -/
inductive ValidationResult where
  | rejected (message : String)
  | ok (submission : ContactSubmission)
  deriving DecidableEq, Repr

def msgNameRequired : String := "Name is required"

def msgCompanyRequired : String := "Company is required"

def msgContactRequired : String := "Please provide either an email or phone number"

def msgInvalidEmail : String := "Please provide a valid email address"

def msgInvalidPhone : String := "Please provide a valid phone number (French +33 or international format)"

/-- The template string of the default comment.  The raw `name` and
`company` arguments are interpolated, not their trimmed versions. -/
def defaultComment (name company : Option JStr) : JStr :=
  name.getD [] ++ (" from ".toList) ++ company.getD [] ++
    (" was interested in your portfolio".toList)

/-- The conditional `s ? s.trim() : ''` applied to a nullable field
(used for the `email` and `phoneNumber` fields of the result). -/
def optTrim (o : Option JStr) : JStr :=
  match o with
  | none => []
  | some s => if s.isEmpty then [] else trimJs s

/-- `validateContactForm` from validation.js.  Each `showError(m); return
false` pair of the source is modelled as `.rejected m`; the final
`return` of the validated-data object is `.ok`. -/
def validateContactForm (name email phoneNumber company comment : Option JStr) :
    ValidationResult :=
  if fieldBlank name then .rejected msgNameRequired
  else if fieldBlank company then .rejected msgCompanyRequired
  else if fieldBlank email && fieldBlank phoneNumber then .rejected msgContactRequired
  else if !fieldBlank email && !isValidEmail email then .rejected msgInvalidEmail
  else if !fieldBlank phoneNumber && !isValidPhoneNumber phoneNumber then
    .rejected msgInvalidPhone
  else .ok
    { success := true
      name := trimJs (name.getD [])
      email := optTrim email
      phoneNumber := optTrim phoneNumber
      company := trimJs (company.getD [])
      finalComment :=
        if !fieldBlank comment then comment.getD [] else defaultComment name company }

example :
    validateContactForm (some ("Jo".toList)) (some []) (some ("0612345678".toList))
      (some ("Acme".toList)) (some []) =
      .ok ⟨true, ("Jo".toList), [], ("0612345678".toList), ("Acme".toList),
        ("Jo from Acme was interested in your portfolio".toList)⟩ := by
  decide

example :
    validateContactForm (some [' ']) (some ("a@b.c".toList)) none (some ("Acme".toList))
      none = .rejected msgNameRequired := by
  decide

example : isValidEmail (some (" a@b.c ".toList)) = true := by decide

example : isValidEmail (some ("a@b@c.d".toList)) = false := by decide

example : isValidPhoneNumber (some ("+33 6 12 34 56 78".toList)) = true := by decide

example : isValidPhoneNumber (some ("061234567".toList)) = false := by decide

/-- The character map of `escapeHtml`: each of the five
HTML-significant characters is replaced by its entity; every other
character is kept. -/
def escapeHtmlChar (c : Char) : JStr :=
  if c = '&' then ("&amp;".toList)
  else if c = '<' then ("&lt;".toList)
  else if c = '>' then ("&gt;".toList)
  else if c = '"' then ("&quot;".toList)
  else if c = Char.ofNat 39 then ("&#039;".toList)
  else [c]

/-- `escapeHtml` from security.js: `String(text ?? '')` maps a null or
absent input to the empty string, then the global replacement
`/[&<>"']/g` rewrites each matched character through the map. -/
def escapeHtml (text : Option JStr) : JStr :=
  ((text.getD []).map escapeHtmlChar).flatten

/-- The characters `encodeURIComponent` leaves unescaped:
`A-Z a-z 0-9 - _ . ! ~ * ' ( )` (ECMAScript `uriUnescaped`). -/
def uriUnreserved (c : Char) : Bool :=
  c.isAlpha || c.isDigit ||
  c = '-' || c = '_' || c = '.' || c = '!' || c = '~' || c = '*' ||
  c = Char.ofNat 39 || c = '(' || c = ')'

/-- UTF-8 encoding of one scalar value, as a list of byte values. -/
def utf8Bytes (c : Char) : List Nat :=
  let n := c.toNat
  if n < 0x80 then [n]
  else if n < 0x800 then [0xC0 + n / 64, 0x80 + n % 64]
  else if n < 0x10000 then [0xE0 + n / 4096, 0x80 + n / 64 % 64, 0x80 + n % 64]
  else [0xF0 + n / 262144, 0x80 + n / 4096 % 64, 0x80 + n / 64 % 64, 0x80 + n % 64]

/-- Upper-case hexadecimal digit for a value below 16. -/
def hexDigitUpper (n : Nat) : Char :=
  if n < 10 then Char.ofNat ('0'.toNat + n) else Char.ofNat ('A'.toNat + n - 10)

/-- `%XX` percent escape of one byte. -/
def percentByte (b : Nat) : JStr := ['%', hexDigitUpper (b / 16), hexDigitUpper (b % 16)]

/-- `normalizeSkillKey` from security.js: `encodeURIComponent(String(skill))`,
keeping the unreserved characters and percent-encoding the UTF-8 bytes
of every other character. -/
def normalizeSkillKey (skill : JStr) : JStr :=
  (skill.map (fun c =>
    if uriUnreserved c then [c] else ((utf8Bytes c).map percentByte).flatten)).flatten

/-- The character class of the fallback branch of `safeCssEscape`:
`!"#$%&'()*+,./:;<=>?@[\]^` backtick `{|}~`. -/
def cssMetaChars : JStr :=
  ['!', '"', '#', '$', '%', '&', Char.ofNat 39, '(', ')', '*', '+', ',', '.', '/',
   ':', ';', '<', '=', '>', '?', '@', '[', '\\', ']', '^', Char.ofNat 0x60,
   '{', '|', '}', '~']

def cssFallbackMeta (c : Char) : Bool := decide (c ∈ cssMetaChars)

/-- `safeCssEscape` from security.js in its fallback branch (the
`CSS.escape` builtin is an external collaborator of the repository; the
in-repository algorithm is the global replacement
`stringValue.replace(/([!"#$%&'()*+,./:;<=>?@\[\\\]^`{|}~])/g, '\\$1')`,
a backslash before every matched character). -/
def safeCssEscape (cs : JStr) : JStr :=
  (cs.map (fun c => if cssFallbackMeta c then ['\\', c] else [c])).flatten

def hexVal (c : Char) : Nat :=
  if '0' ≤ c && c ≤ '9' then c.toNat - '0'.toNat
  else if 'a' ≤ c && c ≤ 'f' then c.toNat - 'a'.toNat + 10
  else if 'A' ≤ c && c ≤ 'F' then c.toNat - 'A'.toNat + 10
  else 0

def hexListVal (cs : JStr) : Nat := cs.foldl (fun a c => a * 16 + hexVal c) 0

/-- `[0-9a-fA-F]` -/
def isHexDigitChar (c : Char) : Bool :=
  ('0' ≤ c && c ≤ '9') || ('a' ≤ c && c ≤ 'f') || ('A' ≤ c && c ≤ 'F')

/-- Take at most `n` leading hexadecimal digits. -/
def takeHex : Nat → JStr → JStr × JStr
  | 0, cs => ([], cs)
  | _ + 1, [] => ([], [])
  | n + 1, c :: cs =>
    if isHexDigitChar c then
      let p := takeHex n cs
      (c :: p.1, p.2)
    else ([], c :: cs)

theorem takeHex_snd_length (n : Nat) (cs : JStr) : (takeHex n cs).2.length ≤ cs.length := by
  induction n generalizing cs with
  | zero => simp [takeHex]
  | succ n ih =>
    cases cs with
    | nil => simp [takeHex]
    | cons c cs =>
      by_cases h : isHexDigitChar c
      · simp only [takeHex, h, if_true, List.length_cons]
        exact Nat.le_trans (ih cs) (Nat.le_succ _)
      · simp [takeHex, h]

/-- The whitespace consumed after a hexadecimal escape in CSS. -/
def isCssWhitespace (c : Char) : Bool :=
  c = ' ' || c = '\t' || c = '\n' || c = '\r' || c = Char.ofNat 0x0C

def skipOneCssWs (cs : JStr) : JStr :=
  match cs with
  | c :: rest => if isCssWhitespace c then rest else c :: rest
  | [] => []

theorem skipOneCssWs_length (cs : JStr) : (skipOneCssWs cs).length ≤ cs.length := by
  cases cs with
  | nil => simp [skipOneCssWs]
  | cons c rest =>
    by_cases h : isCssWhitespace c
    · simp [skipOneCssWs, h]
    · simp [skipOneCssWs, h]

theorem cssSkip_length (cs : JStr) : (skipOneCssWs (takeHex 5 cs).2).length ≤ cs.length :=
  Nat.le_trans (skipOneCssWs_length _) (takeHex_snd_length 5 cs)

/-- Modelled from the spec: the CSS escape decoding that
`document.querySelectorAll` applies to the quoted value of the
attribute selector `[data-skill="..."]` (missing from src/, a browser
behaviour).  A backslash followed by hexadecimal digits consumes up to
six of them plus one optional whitespace and denotes the code point; a
backslash followed by any other character denotes that character; all
other characters denote themselves. -/
def cssUnescape : JStr → JStr
  | [] => []
  | c :: rest =>
    if c = '\\' then
      match rest with
      | [] => [Char.ofNat 0xFFFD]
      | d :: rest2 =>
        if isHexDigitChar d then
          Char.ofNat (hexListVal (d :: (takeHex 5 rest2).1)) ::
            cssUnescape (skipOneCssWs (takeHex 5 rest2).2)
        else d :: cssUnescape rest2
    else c :: cssUnescape rest
termination_by cs => cs.length
decreasing_by
all_goals simp only [List.length_cons]
all_goals first
  | omega
  | (rename_i rest2 _
     have := cssSkip_length rest2
     omega)

/-- Modelled from the spec: an element tagged with attribute value
`attr` is matched by the attribute selector whose quoted value is
`sel` exactly when the decoded selector value equals the attribute. -/
def selectorMatches (sel attr : JStr) : Bool := cssUnescape sel = attr

/-- The `data-skill` attribute value written by `developProject` for one
skill: `data-skill="${skillKey}"` with `skillKey = normalizeSkillKey(skill)`. -/
def skillTagKey (skill : JStr) : JStr := normalizeSkillKey skill

/-- The full skill tag markup written by `developProject` for one skill. -/
def skillTagHtml (skill : JStr) : JStr :=
  ("<span class=".toList) ++ ['"'] ++ ("skill-tag".toList) ++ ['"'] ++
    (" data-skill=".toList) ++ ['"'] ++ skillTagKey skill ++ ['"'] ++ ['>'] ++
    escapeHtml (some skill) ++ ("</span>".toList)

/-- The quoted value of the selector built by `highlightSkill`:
`[data-skill="${escapedKey}"]` with
`escapedKey = safeCssEscape(normalizeSkillKey(skill))`. -/
def highlightSelectorKey (skill : JStr) : JStr :=
  safeCssEscape (normalizeSkillKey skill)

example : normalizeSkillKey ("C++".toList) = ("C%2B%2B".toList) := by decide

example : safeCssEscape ("C%2B%2B".toList) = ("C\\%2B\\%2B".toList) := by decide

/-- The slice of a DOM element that the project-box code reads and
writes: `dataset.expanded` (a nullable string attribute) and the class
list. -/
structure Elem where
  dataExpanded : Option String
  classes : List String
  deriving DecidableEq, Repr

/-- `classList.toggle(name, force)`: with `force = true` behave as
`classList.add` (append the token unless present), with `force = false`
behave as `classList.remove` (drop every occurrence). -/
def classToggle (name : String) (force : Bool) (cs : List String) : List String :=
  if force then (if name ∈ cs then cs else cs ++ [name])
  else cs.filter (fun c => decide (c ≠ name))

/-- The body of `toggleProjectBox` from projects.js on a non-null
element: flip `dataset.expanded` between the strings `1` and `0`, then
`classList.toggle('project-large', !isExpanded)` and
`classList.toggle('project-small', isExpanded)`. -/
def toggleProjectBoxStep (e : Elem) : Elem :=
  let isExpanded : Bool := e.dataExpanded = some "1"
  { dataExpanded := some (if isExpanded then "0" else "1")
    classes :=
      classToggle "project-small" isExpanded
        (classToggle "project-large" (!isExpanded) e.classes) }

/-- `toggleProjectBox` with its null guard `if (!projectElement) return`. -/
def toggleProjectBox : Option Elem → Option Elem
  | none => none
  | some e => some (toggleProjectBoxStep e)

example :
    toggleProjectBox (some ⟨some "1", ["project-box", "project-large"]⟩) =
      some ⟨some "0", ["project-box", "project-small"]⟩ := by decide

example :
    toggleProjectBox (some ⟨none, ["project-box"]⟩) =
      some ⟨some "1", ["project-box", "project-large"]⟩ := by decide

/-- The two values of the `LANGUAGE` constant (`ENGLISH = 1`,
`FRENCH = 0`); `switchLanguage` rejects every other argument. -/
inductive LANGUAGE where
  | english
  | french
  deriving DecidableEq, Repr

/-- Lower-casing used to model the `i` flag of the three path regexes
(their pattern characters are all ASCII). -/
def lowerJs (cs : JStr) : JStr := cs.map Char.toLower

def htmlSuffix : JStr := ['.', 'h', 't', 'm', 'l']

def frHtmlSuffix : JStr := ['-', 'f', 'r', '.', 'h', 't', 'm', 'l']

/-- `/\.html$/i.test p` -/
def endsWithHtmlCI (p : JStr) : Bool := decide (htmlSuffix <:+ lowerJs p)

/-- The test of the pattern `-fr\.html$` with flag `i`. -/
def endsWithFrHtmlCI (p : JStr) : Bool := decide (frHtmlSuffix <:+ lowerJs p)

/-- The normalisation step of `switchLanguage`: a path that does not end
in `.html` gets a trailing slash (unless already present) and then
`index.html`. -/
def normalizePagePath (p : JStr) : JStr :=
  if endsWithHtmlCI p then p
  else (if p.getLast? = some '/' then p else p ++ ['/']) ++ ("index.html".toList)

/-- The path rewriting of `switchLanguage`: for English,
the replacement of the anchored pattern `-fr(\.html)$` (flag `i`) by
`$1` (drop the `-fr`, keep the captured extension characters); for
French, insert `-fr` before the extension via the replacement of
`(\.html)$` (flag `i`) by `-fr$1`, unless the path already ends in
`-fr.html`. -/
def switchPath (lang : LANGUAGE) (p : JStr) : JStr :=
  let np := normalizePagePath p
  match lang with
  | .english =>
    if endsWithFrHtmlCI np then np.take (np.length - 8) ++ np.drop (np.length - 5)
    else np
  | .french =>
    if endsWithFrHtmlCI np then np
    else if endsWithHtmlCI np then
      np.take (np.length - 5) ++ ['-', 'f', 'r'] ++ np.drop (np.length - 5)
    else np

/-- The parts of `window.location` that `switchLanguage` reads and
writes: it rewrites `pathname` only, so `search` and `hash` ride along
unchanged. -/
structure Url where
  path : JStr
  search : String
  hash : String
  deriving DecidableEq, Repr

/-- `switchLanguage` from language.js as a navigation decision: `some`
of the target URL when `newPath !== currentPath`, `none` (no
navigation) otherwise. -/
def switchLanguage (lang : LANGUAGE) (u : Url) : Option Url :=
  let newPath := switchPath lang u.path
  if newPath = u.path then none else some { u with path := newPath }

example : switchPath .french ("page.html".toList) = ("page-fr.html".toList) := by decide

example : switchPath .english ("page-fr.html".toList) = ("page.html".toList) := by decide

example : switchPath .french ("page-fr.html".toList) = ("page-fr.html".toList) := by decide

example : switchPath .french ("/about".toList) = ("/about/index-fr.html".toList) := by decide

example : switchPath .english ("PAGE-FR.HTML".toList) = ("PAGE.HTML".toList) := by decide

/-- The three message kinds of notifications.js (`error`, `success`,
`info`). -/
inductive MsgKind where
  | error
  | success
  | info
  deriving DecidableEq, Repr

/-- One pending `setTimeout` callback created by `showMessage`: its
timer id, the message kind whose element the callback hides, and the
instant at which it fires. -/
structure TimerEntry where
  id : Nat
  kind : MsgKind
  fireAt : Nat
  deriving DecidableEq, Repr

/-- The message element of one kind (`${type}-message`): its text
content and whether `style.display` is `block` (`true`) or `none`. -/
structure DivState where
  text : String
  visible : Bool
  deriving DecidableEq, Repr

/-- The state touched by notifications.js: the current time, the next
fresh timer id, the pending timeout callbacks, the `messageTimers`
record, and the per-kind message elements. -/
structure NotifState where
  now : Nat
  nextTimerId : Nat
  pending : List TimerEntry
  timers : MsgKind → Option Nat
  divs : MsgKind → Option DivState

/-- `showMessage(type, message, duration)` from notifications.js, on the
path where `document.body` is available: create the element of this
kind if absent, set its text and show it, `clearTimeout` the previously
stored timer of this kind if any, and store a fresh timer that will
hide this kind's element after `duration`.  `clearTimeout` is modelled
by removing the cancelled entry from the pending list (its callback
will never run). -/
def showMessage (k : MsgKind) (message : String) (duration : Nat)
    (s : NotifState) : NotifState :=
  let pending1 :=
    match s.timers k with
    | some tid => s.pending.filter (fun t => decide (t.id ≠ tid))
    | none => s.pending
  { now := s.now
    nextTimerId := s.nextTimerId + 1
    pending := pending1 ++ [⟨s.nextTimerId, k, s.now + duration⟩]
    timers := fun k2 => if k2 = k then some s.nextTimerId else s.timers k2
    divs := fun k2 => if k2 = k then some ⟨message, true⟩ else s.divs k2 }

/-- The expiry callback `messageDiv.style.display = 'none'` of the
timer `tid`, if that timer is still pending: it hides the element of
its own kind and is consumed. -/
def fireTimer (tid : Nat) (s : NotifState) : NotifState :=
  match s.pending.find? (fun t => decide (t.id = tid)) with
  | none => s
  | some t =>
    { s with
      pending := s.pending.filter (fun e => decide (e.id ≠ tid))
      divs := fun k2 =>
        if k2 = t.kind then (s.divs k2).map (fun d => { d with visible := false })
        else s.divs k2 }

/-- Passage of time between two events. -/
def elapse (d : Nat) (s : NotifState) : NotifState := { s with now := s.now + d }

/-- Well-formedness of the notification state: pending timer ids are
fresh, the stored `messageTimers` ids are fresh, and every pending
timer of a kind is the one stored for that kind (hence at most one
pending expiry per kind). -/
def NotifState.wf (s : NotifState) : Prop :=
  (∀ t ∈ s.pending, t.id < s.nextTimerId) ∧
  (∀ k tid, s.timers k = some tid → tid < s.nextTimerId) ∧
  (∀ t ∈ s.pending, s.timers t.kind = some t.id)

/-- The `showError` / `showSuccess` / `showInfo` wrappers all call
`showMessage` with the default duration 5000. -/
def showErrorS (message : String) (s : NotifState) : NotifState :=
  showMessage .error message 5000 s

def showSuccessS (message : String) (s : NotifState) : NotifState :=
  showMessage .success message 5000 s

def showInfoS (message : String) (s : NotifState) : NotifState :=
  showMessage .info message 5000 s

/-- The three credential constants of email.js. -/
structure EmailConfig where
  serviceID : String
  templateID : String
  publicKey : String
  deriving DecidableEq, Repr

/-- The values shipped in the source:
`'service_id'`, `'template_id'`, `'public_key'`. -/
def placeholderConfig : EmailConfig :=
  { serviceID := "service_id", templateID := "template_id", publicKey := "public_key" }

/-- The environment read by `sendEmail`: whether the `emailjs` global is
defined, and `location.hostname`. -/
structure BrowserEnv where
  emailjsLoaded : Bool
  hostname : String
  deriving DecidableEq, Repr

/-- The credential check of `sendEmail`: all three constants truthy and
none still a placeholder. -/
def validCredentials (c : EmailConfig) : Bool :=
  !(c.serviceID = "") && !(c.templateID = "") && !(c.publicKey = "") &&
  !(c.serviceID = "service_id") && !(c.templateID = "template_id") &&
  !(c.publicKey = "public_key")

/-- The composed message body of `sendEmail`: the escaped content, a
separator, and a contact-information footer listing whichever of the
sender's email and phone are present, joined with newlines. -/
def emailBody (content senderEmail senderPhone : JStr) : JStr :=
  List.intercalate ['\n']
    ([escapeHtml (some content), [], ['-', '-', '-'], ("Contact Information:".toList)] ++
      (if !senderEmail.isEmpty then [("Email: ".toList) ++ escapeHtml (some senderEmail)] else []) ++
      (if !senderPhone.isEmpty then [("Phone: ".toList) ++ escapeHtml (some senderPhone)] else []))

/-- The externally visible outcome of one `sendEmail` call: whether
`emailjs.send` was invoked, the user-facing message it showed
(kind and text), and the payload logged to the console in the
local-development fallback (`none` when nothing was logged). -/
structure EmailEffects where
  attemptedSend : Bool
  message : Option (MsgKind × String)
  loggedPayload : Option JStr
  deriving DecidableEq, Repr

def msgServiceUnavailable : String := "Email service is not available. Please try again later."

def msgInvalidRecipient : String := "Invalid recipient email address."

def msgPreviewOnly : String := "Preview only — no email was sent. EmailJS is not configured."

/-- `sendEmail` from email.js, parametrised by the credential constants
and the browser environment.  The guards return in source order: the
`emailjs` presence check, the target-address check, then the credential
check with its local-development-only payload log; the final branch
initialises EmailJS and calls `emailjs.send` (the asynchronous outcome
of that call is the external relay's, not modelled). -/
def sendEmail (cfg : EmailConfig) (env : BrowserEnv)
    (target title content senderEmail senderPhone : JStr) : EmailEffects :=
  if !env.emailjsLoaded then
    { attemptedSend := false, message := some (.error, msgServiceUnavailable),
      loggedPayload := none }
  else if target.isEmpty || !isValidEmail (some target) then
    { attemptedSend := false, message := some (.error, msgInvalidRecipient),
      loggedPayload := none }
  else if !validCredentials cfg then
    let isLocalDev : Bool := env.hostname = "localhost" || env.hostname = "127.0.0.1"
    { attemptedSend := false
      message := some (.info, msgPreviewOnly)
      loggedPayload :=
        if isLocalDev then some (emailBody content senderEmail senderPhone) else none }
  else
    { attemptedSend := true, message := none, loggedPayload := none }

example :
    (sendEmail placeholderConfig ⟨true, "alexis-beriot.example"⟩
      ("alexis.r.beriot@gmail.com".toList) ("Jo - Acme".toList) ("hi".toList) [] []).message =
      some (.info, msgPreviewOnly) := by decide

example :
    (sendEmail placeholderConfig ⟨true, "localhost"⟩
      ("alexis.r.beriot@gmail.com".toList) ("Jo - Acme".toList) ("hi".toList) [] []).loggedPayload =
      some (("hi\n\n---\nContact Information:".toList)) := by decide

example :
    (sendEmail placeholderConfig ⟨false, "localhost"⟩
      ("alexis.r.beriot@gmail.com".toList) ("Jo - Acme".toList) ("hi".toList) [] []).message =
      some (.error, msgServiceUnavailable) := by decide

theorem mem_classToggle_add (name x : String) (cs : List String) :
    x ∈ classToggle name true cs ↔ x ∈ cs ∨ x = name := by
  by_cases h : name ∈ cs
  · simp only [classToggle, if_pos h, if_pos trivial]
    constructor
    · exact Or.inl
    · rintro (hx | rfl)
      · exact hx
      · exact h
  · simp [classToggle, h]

theorem mem_classToggle_remove (name x : String) (cs : List String) :
    x ∈ classToggle name false cs ↔ x ∈ cs ∧ x ≠ name := by
  simp [classToggle]

/-- Claim C1: validateContactForm evaluates its rules in the fixed
order name, company, contact method, email format, phone format; it
short-circuits at the first failing rule and rejects with exactly that
rule's message (in particular a blank name always yields the
name-required rejection, whatever the other fields hold), the five
messages are pairwise distinct, and when every rule passes it
succeeds. -/
theorem validateContactForm_rule_order (n e p c m : Option JStr) :
    (fieldBlank n = true →
      validateContactForm n e p c m = .rejected msgNameRequired) ∧
    (fieldBlank n = false → fieldBlank c = true →
      validateContactForm n e p c m = .rejected msgCompanyRequired) ∧
    (fieldBlank n = false → fieldBlank c = false → fieldBlank e = true →
      fieldBlank p = true →
      validateContactForm n e p c m = .rejected msgContactRequired) ∧
    (fieldBlank n = false → fieldBlank c = false → fieldBlank e = false →
      isValidEmail e = false →
      validateContactForm n e p c m = .rejected msgInvalidEmail) ∧
    (fieldBlank n = false → fieldBlank c = false → fieldBlank p = false →
      (fieldBlank e = true ∨ isValidEmail e = true) →
      isValidPhoneNumber p = false →
      validateContactForm n e p c m = .rejected msgInvalidPhone) ∧
    (fieldBlank n = false → fieldBlank c = false →
      (fieldBlank e = false ∨ fieldBlank p = false) →
      (fieldBlank e = true ∨ isValidEmail e = true) →
      (fieldBlank p = true ∨ isValidPhoneNumber p = true) →
      ∃ r, validateContactForm n e p c m = .ok r) ∧
    List.Pairwise (fun a b => a ≠ b)
      [msgNameRequired, msgCompanyRequired, msgContactRequired,
       msgInvalidEmail, msgInvalidPhone] := by
  refine ⟨?_, ?_, ?_, ?_, ?_, ?_, by decide⟩
  · intro h1
    simp [validateContactForm, h1]
  · intro h1 h2
    simp [validateContactForm, h1, h2]
  · intro h1 h2 h3 h4
    simp [validateContactForm, h1, h2, h3, h4]
  · intro h1 h2 h3 h4
    simp [validateContactForm, h1, h2, h3, h4]
  · intro h1 h2 h3 h4 h5
    rcases h4 with h4 | h4 <;> simp [validateContactForm, h1, h2, h3, h4, h5]
  · intro h1 h2 h3 h4 h5
    rcases h3 with h3 | h3 <;> rcases h4 with h4 | h4 <;> rcases h5 with h5 | h5 <;>
      simp_all [validateContactForm]

theorem validateContactForm_rule_order_witness :
    validateContactForm none (some ("a@b.c".toList)) none (some ("Acme".toList)) none =
      .rejected msgNameRequired :=
  (validateContactForm_rule_order none (some ("a@b.c".toList)) none
    (some ("Acme".toList)) none).1 (by decide)

/-- Counterexample to claim C2 as stated: on a valid submission whose
comment is ` hi `, the returned comment field is ` hi ` verbatim, which
is not trimmed — so not every text field of the record is trimmed. -/
theorem validateContactForm_comment_not_trimmed :
    validateContactForm (some ("Jo".toList)) none (some ("0612345678".toList))
        (some ("Acme".toList)) (some (" hi ".toList)) =
      .ok ⟨true, ("Jo".toList), [], ("0612345678".toList), ("Acme".toList),
        (" hi ".toList)⟩ ∧
    trimJs (" hi ".toList) ≠ (" hi ".toList) :=
  ⟨by decide, by decide⟩

/-- Claim C2 (amended): whenever all validation rules pass,
validateContactForm returns a record whose name, email, phoneNumber and
company fields are trimmed, and whose comment equals the default text
built from the raw name and company when the input comment is blank or
absent and the input comment verbatim (not trimmed) otherwise; in
particular the call with name `Jo`, phone `0612345678`, company `Acme`
and empty comment succeeds with the default comment. -/
theorem validateContactForm_success_fields (n e p c m : Option JStr)
    (r : ContactSubmission) (h : validateContactForm n e p c m = .ok r) :
    r.success = true ∧
    r.name = trimJs (n.getD []) ∧
    r.email = optTrim e ∧
    r.phoneNumber = optTrim p ∧
    r.company = trimJs (c.getD []) ∧
    r.finalComment = (if fieldBlank m then defaultComment n c else m.getD []) ∧
    validateContactForm (some ("Jo".toList)) (some []) (some ("0612345678".toList))
        (some ("Acme".toList)) (some []) =
      .ok ⟨true, ("Jo".toList), [], ("0612345678".toList), ("Acme".toList),
        ("Jo from Acme was interested in your portfolio".toList)⟩ := by
  simp only [validateContactForm] at h
  split at h
  · exact absurd h (by simp)
  split at h
  · exact absurd h (by simp)
  split at h
  · exact absurd h (by simp)
  split at h
  · exact absurd h (by simp)
  split at h
  · exact absurd h (by simp)
  cases h
  refine ⟨rfl, rfl, rfl, rfl, rfl, ?_, by decide⟩
  by_cases hm : fieldBlank m = true
  · simp [hm]
  · simp [Bool.not_eq_true] at hm
    simp [hm]

theorem validateContactForm_success_fields_witness :
    (⟨true, ("Jo".toList), [], ("0612345678".toList), ("Acme".toList),
      (" hi ".toList)⟩ : ContactSubmission).finalComment =
      (if fieldBlank (some (" hi ".toList)) then
        defaultComment (some ("Jo".toList)) (some ("Acme".toList))
      else (some (" hi ".toList)).getD []) :=
  (validateContactForm_success_fields (some ("Jo".toList)) none
    (some ("0612345678".toList)) (some ("Acme".toList)) (some (" hi ".toList))
    ⟨true, ("Jo".toList), [], ("0612345678".toList), ("Acme".toList), (" hi ".toList)⟩
    (by decide)).2.2.2.2.2.1

/-- Claim C7: toggleProjectBox is a no-op on a null reference, and on a
rendered card in a definite state (data-expanded `1` with exactly the
large class, or `0` with exactly the small class) one application flips
the state and swaps the size class, while two applications restore the
original data-expanded value and the original class set. -/
theorem toggleProjectBox_involutive (e : Elem)
    (h : (e.dataExpanded = some "1" ∧ "project-large" ∈ e.classes ∧
            "project-small" ∉ e.classes) ∨
         (e.dataExpanded = some "0" ∧ "project-small" ∈ e.classes ∧
            "project-large" ∉ e.classes)) :
    toggleProjectBox none = none ∧
    toggleProjectBox (some e) = some (toggleProjectBoxStep e) ∧
    (toggleProjectBoxStep e).dataExpanded =
      some (if e.dataExpanded = some "1" then "0" else "1") ∧
    ("project-large" ∈ (toggleProjectBoxStep e).classes ↔
      ¬e.dataExpanded = some "1") ∧
    ("project-small" ∈ (toggleProjectBoxStep e).classes ↔
      e.dataExpanded = some "1") ∧
    (toggleProjectBoxStep (toggleProjectBoxStep e)).dataExpanded = e.dataExpanded ∧
    (∀ cl, cl ∈ (toggleProjectBoxStep (toggleProjectBoxStep e)).classes ↔
      cl ∈ e.classes) := by
  rcases h with ⟨h1, h2, h3⟩ | ⟨h1, h2, h3⟩
  · refine ⟨rfl, rfl, by simp [toggleProjectBoxStep, h1], ?_, ?_, ?_, ?_⟩
    · simp [toggleProjectBoxStep, h1, mem_classToggle_add, mem_classToggle_remove]
    · simp [toggleProjectBoxStep, h1, mem_classToggle_add, mem_classToggle_remove]
    · simp [toggleProjectBoxStep, h1]
    · intro cl
      simp only [toggleProjectBoxStep, h1]
      by_cases hcl1 : cl = "project-large" <;> by_cases hcl2 : cl = "project-small" <;>
        simp_all [mem_classToggle_add, mem_classToggle_remove]
  · refine ⟨rfl, rfl, by simp [toggleProjectBoxStep, h1], ?_, ?_, ?_, ?_⟩
    · simp [toggleProjectBoxStep, h1, mem_classToggle_add, mem_classToggle_remove]
    · simp [toggleProjectBoxStep, h1, mem_classToggle_add, mem_classToggle_remove]
    · simp [toggleProjectBoxStep, h1]
    · intro cl
      simp only [toggleProjectBoxStep, h1]
      by_cases hcl1 : cl = "project-large" <;> by_cases hcl2 : cl = "project-small" <;>
        simp_all [mem_classToggle_add, mem_classToggle_remove]

theorem toggleProjectBox_involutive_witness :
    (toggleProjectBoxStep (toggleProjectBoxStep
      ⟨some "1", ["project-box", "project-large"]⟩)).dataExpanded = some "1" :=
  (toggleProjectBox_involutive ⟨some "1", ["project-box", "project-large"]⟩
    (by simp)).2.2.2.2.2.1

/-- Claim C10: after one application of toggleProjectBox to any
non-null element — whatever its prior data-expanded value or class list
— the data-expanded attribute is exactly `0` or `1`, and the element
carries exactly one of the two size classes, with project-large present
exactly when data-expanded is `1`. -/
theorem toggleProjectBox_normalizes (e : Elem) :
    toggleProjectBox (some e) = some (toggleProjectBoxStep e) ∧
    ((toggleProjectBoxStep e).dataExpanded = some "1" ∨
     (toggleProjectBoxStep e).dataExpanded = some "0") ∧
    ("project-large" ∈ (toggleProjectBoxStep e).classes ↔
      (toggleProjectBoxStep e).dataExpanded = some "1") ∧
    ("project-small" ∈ (toggleProjectBoxStep e).classes ↔
      ¬(toggleProjectBoxStep e).dataExpanded = some "1") ∧
    ¬("project-large" ∈ (toggleProjectBoxStep e).classes ∧
      "project-small" ∈ (toggleProjectBoxStep e).classes) ∧
    ("project-large" ∈ (toggleProjectBoxStep e).classes ∨
     "project-small" ∈ (toggleProjectBoxStep e).classes) := by
  by_cases hd : e.dataExpanded = some "1"
  · refine ⟨rfl, Or.inr (by simp [toggleProjectBoxStep, hd]), ?_, ?_, ?_, ?_⟩ <;>
      simp [toggleProjectBoxStep, hd, mem_classToggle_add, mem_classToggle_remove]
  · refine ⟨rfl, Or.inl (by simp [toggleProjectBoxStep, hd]), ?_, ?_, ?_, ?_⟩ <;>
      simp [toggleProjectBoxStep, hd, mem_classToggle_add, mem_classToggle_remove]

/-- Counterexample to claim C8 as stated: with the shipped placeholder
credentials (hence credentials are placeholder values) but the
`emailjs` global undefined, sendEmail reports the service-unavailable
error, not the informational preview-only outcome. -/
theorem sendEmail_unconfigured_cx :
    validCredentials placeholderConfig = false ∧
    (sendEmail placeholderConfig ⟨false, "localhost"⟩
        ("alexis.r.beriot@gmail.com".toList) ("Jo - Acme".toList) ("hi".toList)
        [] []).message = some (.error, msgServiceUnavailable) ∧
    ¬(sendEmail placeholderConfig ⟨false, "localhost"⟩
        ("alexis.r.beriot@gmail.com".toList) ("Jo - Acme".toList) ("hi".toList)
        [] []).message = some (.info, msgPreviewOnly) :=
  ⟨by decide, by decide, by decide⟩

/-- Claim C8 (amended): whenever the credentials are missing or still
placeholder values, sendEmail never invokes the external send
operation; and provided the email client library is loaded and the
target address passes the recipient check, it reports the
informational preview-only message and logs the would-be payload
exactly when the hostname is localhost or 127.0.0.1 (in any other
context it shows the message without logging payload content). -/
theorem sendEmail_unconfigured (cfg : EmailConfig) (env : BrowserEnv)
    (target title content senderEmail senderPhone : JStr)
    (h : validCredentials cfg = false) :
    (sendEmail cfg env target title content senderEmail senderPhone).attemptedSend =
      false ∧
    (env.emailjsLoaded = true → target.isEmpty = false →
      isValidEmail (some target) = true →
      ((sendEmail cfg env target title content senderEmail senderPhone).message =
          some (.info, msgPreviewOnly) ∧
       (sendEmail cfg env target title content senderEmail senderPhone).loggedPayload =
          (if (env.hostname = "localhost" || env.hostname = "127.0.0.1" : Bool) then
            some (emailBody content senderEmail senderPhone)
          else none))) := by
  constructor
  · simp only [sendEmail]
    split
    · rfl
    · split
      · rfl
      · simp [h]
  · intro h1 h2 h3
    simp [sendEmail, h, h1, h2, h3]

theorem sendEmail_unconfigured_witness :
    (sendEmail placeholderConfig ⟨true, "alexis-beriot.example"⟩
        ("alexis.r.beriot@gmail.com".toList) ("Jo - Acme".toList) ("hi".toList)
        [] []).message = some (.info, msgPreviewOnly) ∧
    (sendEmail placeholderConfig ⟨true, "alexis-beriot.example"⟩
        ("alexis.r.beriot@gmail.com".toList) ("Jo - Acme".toList) ("hi".toList)
        [] []).loggedPayload = none := by
  have h := (sendEmail_unconfigured placeholderConfig ⟨true, "alexis-beriot.example"⟩
    ("alexis.r.beriot@gmail.com".toList) ("Jo - Acme".toList) ("hi".toList) [] []
    (by decide)).2 (by decide) (by decide) (by decide)
  exact ⟨h.1, by simpa using h.2⟩

/-- The five HTML-significant characters handled by escapeHtml. -/
def htmlSpecialChars : JStr := ['&', '<', '>', '"', Char.ofNat 39]

/-- A raw occurrence of an HTML-significant character: scan the string,
stepping over the five entity replacements emitted by escapeHtml, and
report whether one of the five characters occurs outside such an
entity. -/
def containsRawSpecial : JStr → Bool
  | [] => false
  | '&' :: 'a' :: 'm' :: 'p' :: ';' :: rest => containsRawSpecial rest
  | '&' :: 'l' :: 't' :: ';' :: rest => containsRawSpecial rest
  | '&' :: 'g' :: 't' :: ';' :: rest => containsRawSpecial rest
  | '&' :: 'q' :: 'u' :: 'o' :: 't' :: ';' :: rest => containsRawSpecial rest
  | '&' :: '#' :: '0' :: '3' :: '9' :: ';' :: rest => containsRawSpecial rest
  | c :: rest => if c ∈ htmlSpecialChars then true else containsRawSpecial rest

theorem crs_amp (t : JStr) :
    containsRawSpecial (("&amp;".toList) ++ t) = containsRawSpecial t := rfl

theorem crs_lt (t : JStr) :
    containsRawSpecial (("&lt;".toList) ++ t) = containsRawSpecial t := rfl

theorem crs_gt (t : JStr) :
    containsRawSpecial (("&gt;".toList) ++ t) = containsRawSpecial t := rfl

theorem crs_quot (t : JStr) :
    containsRawSpecial (("&quot;".toList) ++ t) = containsRawSpecial t := rfl

theorem crs_apos (t : JStr) :
    containsRawSpecial (("&#039;".toList) ++ t) = containsRawSpecial t := rfl

set_option maxHeartbeats 1600000 in
theorem crs_safe (c : Char) (t : JStr) (h : c ∉ htmlSpecialChars) :
    containsRawSpecial (c :: t) = containsRawSpecial t := by
  rw [containsRawSpecial.eq_def]
  split <;>
    first
    | (rename_i heq
       exact List.noConfusion heq)
    | (rename_i heq
       rw [List.cons.injEq] at heq
       exact absurd (by rw [heq.1]; decide) h)
    | (rename_i heq
       rw [List.cons.injEq] at heq
       obtain ⟨h1, h2⟩ := heq
       subst h1
       subst h2
       rw [if_neg h])

theorem crs_escapeHtml (cs : JStr) :
    containsRawSpecial ((cs.map escapeHtmlChar).flatten) = false := by
  induction cs with
  | nil => rfl
  | cons c cs ih =>
    simp only [List.map_cons, List.flatten_cons]
    by_cases h1 : c = '&'
    · subst h1
      rw [show escapeHtmlChar '&' = ("&amp;".toList) from rfl, crs_amp]
      exact ih
    by_cases h2 : c = '<'
    · subst h2
      rw [show escapeHtmlChar '<' = ("&lt;".toList) from rfl, crs_lt]
      exact ih
    by_cases h3 : c = '>'
    · subst h3
      rw [show escapeHtmlChar '>' = ("&gt;".toList) from rfl, crs_gt]
      exact ih
    by_cases h4 : c = '"'
    · subst h4
      rw [show escapeHtmlChar '"' = ("&quot;".toList) from rfl, crs_quot]
      exact ih
    by_cases h5 : c = Char.ofNat 39
    · subst h5
      rw [show escapeHtmlChar (Char.ofNat 39) = ("&#039;".toList) from rfl, crs_apos]
      exact ih
    · rw [show escapeHtmlChar c = [c] from by simp [escapeHtmlChar, h1, h2, h3, h4, h5],
        List.singleton_append,
        crs_safe c _ (by simp [htmlSpecialChars, h1, h2, h3, h4, h5])]
      exact ih

/-- Claim C3: escapeHtml maps each of the five HTML-significant
characters to its entity, leaves every other character unchanged,
treats a null/absent input as the empty string, and its output never
contains a raw occurrence of any of the five characters (an occurrence
outside the emitted entities). -/
theorem escapeHtml_escapes (cs : JStr) :
    escapeHtmlChar '&' = ("&amp;".toList) ∧
    escapeHtmlChar '<' = ("&lt;".toList) ∧
    escapeHtmlChar '>' = ("&gt;".toList) ∧
    escapeHtmlChar '"' = ("&quot;".toList) ∧
    escapeHtmlChar (Char.ofNat 39) = ("&#039;".toList) ∧
    (∀ c, c ∉ htmlSpecialChars → escapeHtmlChar c = [c]) ∧
    escapeHtml none = [] ∧
    containsRawSpecial (escapeHtml (some cs)) = false := by
  refine ⟨rfl, rfl, rfl, rfl, rfl, ?_, rfl, crs_escapeHtml cs⟩
  intro c hc
  simp only [htmlSpecialChars, List.mem_cons, List.mem_singleton, not_or] at hc
  obtain ⟨h1, h2, h3, h4, h5⟩ := hc
  simp [escapeHtmlChar, h1, h2, h3, h4, h5]

theorem escapeHtml_escapes_witness :
    escapeHtmlChar 'a' = ['a'] ∧
    containsRawSpecial (escapeHtml (some ("<b>".toList))) = false :=
  ⟨(escapeHtml_escapes []).2.2.2.2.2.1 'a' (by decide),
   (escapeHtml_escapes ("<b>".toList)).2.2.2.2.2.2.2⟩

theorem lowerJs_append (a b : JStr) : lowerJs (a ++ b) = lowerJs a ++ lowerJs b :=
  List.map_append _ a b

theorem endsWithHtmlCI_append_index (q : JStr) :
    endsWithHtmlCI (q ++ ("index.html".toList)) = true := by
  simp only [endsWithHtmlCI, decide_eq_true_eq]
  rw [lowerJs_append]
  exact (show htmlSuffix <:+ lowerJs ("index.html".toList) by decide).trans
    (List.suffix_append _ _)

theorem normalizePagePath_endsHtml (p : JStr) :
    endsWithHtmlCI (normalizePagePath p) = true := by
  unfold normalizePagePath
  split
  · assumption
  · exact endsWithHtmlCI_append_index _

theorem endsFr_imp_endsHtml (q : JStr) (h : endsWithFrHtmlCI q = true) :
    endsWithHtmlCI q = true := by
  simp only [endsWithFrHtmlCI, decide_eq_true_eq] at h
  simp only [endsWithHtmlCI, decide_eq_true_eq]
  exact (show htmlSuffix <:+ frHtmlSuffix by decide).trans h

theorem endsFr_insert (np : JStr) (h : endsWithHtmlCI np = true) :
    endsWithFrHtmlCI
      (np.take (np.length - 5) ++ ['-', 'f', 'r'] ++ np.drop (np.length - 5)) = true := by
  simp only [endsWithHtmlCI, decide_eq_true_eq] at h
  simp only [endsWithFrHtmlCI, decide_eq_true_eq]
  obtain ⟨t, ht⟩ := h
  simp only [lowerJs] at ht
  have hlen : t.length + 5 = np.length := by
    have hl := congrArg List.length ht
    simp only [List.length_append, List.length_map] at hl
    simpa [htmlSuffix] using hl
  have hdrop : lowerJs (np.drop (np.length - 5)) = htmlSuffix := by
    simp only [lowerJs]
    rw [List.map_drop, ← ht, show np.length - 5 = t.length from by omega,
      List.drop_left]
  have hmid : lowerJs ['-', 'f', 'r'] = ['-', 'f', 'r'] := by decide
  rw [lowerJs_append, lowerJs_append, hdrop, hmid, List.append_assoc]
  exact List.suffix_append _ _

theorem switchPath_french_endsFr (p : JStr) :
    endsWithFrHtmlCI (switchPath .french p) = true := by
  have hh := normalizePagePath_endsHtml p
  by_cases hf : endsWithFrHtmlCI (normalizePagePath p) = true
  · simpa [switchPath, hf] using hf
  · have hf2 : endsWithFrHtmlCI (normalizePagePath p) = false := by
      revert hf
      cases endsWithFrHtmlCI (normalizePagePath p) <;> simp
    simp only [switchPath, hf2, hh, Bool.false_eq_true, if_false, if_true]
    exact endsFr_insert _ hh

theorem switchPath_french_idem (p : JStr) :
    switchPath .french (switchPath .french p) = switchPath .french p := by
  have hf := switchPath_french_endsFr p
  have hh := endsFr_imp_endsHtml _ hf
  generalize hq : switchPath LANGUAGE.french p = q at hf hh ⊢
  have hnorm : normalizePagePath q = q := by simp [normalizePagePath, hh]
  simp [switchPath, hnorm, hf]

/-- Claim C6: the locale-switch transform preserves the query string
and fragment, performs no navigation when the resulting path equals the
current one, defaults non-page paths to an index page, round-trips
`page.html` to `page-fr.html` and back, leaves `page-fr.html` unchanged
under a second switch to French, and more generally switching to French
twice never stacks a second `-fr` suffix. -/
theorem switchLanguage_locale_transform :
    (∀ (lang : LANGUAGE) (u u2 : Url), switchLanguage lang u = some u2 →
      u2.search = u.search ∧ u2.hash = u.hash) ∧
    (∀ (lang : LANGUAGE) (u : Url), switchPath lang u.path = u.path →
      switchLanguage lang u = none) ∧
    switchPath .french ("page.html".toList) = ("page-fr.html".toList) ∧
    switchPath .english ("page-fr.html".toList) = ("page.html".toList) ∧
    switchPath .french ("page-fr.html".toList) = ("page-fr.html".toList) ∧
    switchPath .french ("/about".toList) = ("/about/index-fr.html".toList) ∧
    (∀ p : JStr, switchPath .french (switchPath .french p) = switchPath .french p) := by
  refine ⟨?_, ?_, by decide, by decide, by decide, by decide, switchPath_french_idem⟩
  · intro lang u u2 h
    simp only [switchLanguage] at h
    split at h
    · exact Option.noConfusion h
    · cases h
      exact ⟨rfl, rfl⟩
  · intro lang u h
    simp [switchLanguage, h]

theorem switchLanguage_locale_transform_witness :
    (Url.mk ("page-fr.html".toList) "?lang=0" "#contact").search =
      (Url.mk ("page.html".toList) "?lang=0" "#contact").search ∧
    (Url.mk ("page-fr.html".toList) "?lang=0" "#contact").hash =
      (Url.mk ("page.html".toList) "?lang=0" "#contact").hash :=
  switchLanguage_locale_transform.1 .french
    (Url.mk ("page.html".toList) "?lang=0" "#contact")
    (Url.mk ("page-fr.html".toList) "?lang=0" "#contact") (by decide)

theorem showMessage_wf (k : MsgKind) (msg : String) (dur : Nat) (s : NotifState)
    (hwf : s.wf) : (showMessage k msg dur s).wf := by
  obtain ⟨w1, w2, w3⟩ := hwf
  refine ⟨?_, ?_, ?_⟩
  · intro t ht
    simp only [showMessage, List.mem_append, List.mem_singleton] at ht
    rcases ht with ht | rfl
    · have hmem : t ∈ s.pending := by
        rcases hs : s.timers k with _ | tid <;> rw [hs] at ht
        · exact ht
        · exact (List.mem_filter.mp ht).1
      exact Nat.lt_succ_of_lt (w1 t hmem)
    · exact Nat.lt_succ_self _
  · intro k2 tid ht
    simp only [showMessage] at ht
    by_cases hk : k2 = k
    · rw [if_pos hk] at ht
      cases ht
      exact Nat.lt_succ_self _
    · rw [if_neg hk] at ht
      exact Nat.lt_succ_of_lt (w2 k2 tid ht)
  · intro t ht
    simp only [showMessage, List.mem_append, List.mem_singleton] at ht
    rcases ht with ht | rfl
    · have hkind : t.kind ≠ k := by
        intro hkk
        rcases hs : s.timers k with _ | tid <;> rw [hs] at ht
        · have := w3 t ht
          rw [hkk, hs] at this
          exact Option.noConfusion this
        · obtain ⟨hmem, hpred⟩ := List.mem_filter.mp ht
          have := w3 t hmem
          rw [hkk, hs] at this
          simp only [decide_eq_true_eq] at hpred
          exact hpred (Option.some.injEq _ _ ▸ this.symm ▸ rfl)
      have hmem : t ∈ s.pending := by
        rcases hs : s.timers k with _ | tid <;> rw [hs] at ht
        · exact ht
        · exact (List.mem_filter.mp ht).1
      simp only [showMessage, if_neg hkind]
      exact w3 t hmem
    · simp [showMessage]

theorem showMessage_pending_kind (k : MsgKind) (msg : String) (dur : Nat)
    (s : NotifState) (hwf : s.wf) :
    (showMessage k msg dur s).pending.filter (fun t => decide (t.kind = k)) =
      [⟨s.nextTimerId, k, s.now + dur⟩] := by
  obtain ⟨w1, w2, w3⟩ := hwf
  simp only [showMessage, List.filter_append]
  have hnil :
      (match s.timers k with
        | some tid => s.pending.filter (fun (t : TimerEntry) => decide (t.id ≠ tid))
        | none => s.pending).filter (fun (t : TimerEntry) => decide (t.kind = k)) = [] := by
    rcases hs : s.timers k with _ | tid
    · rw [List.filter_eq_nil_iff]
      intro t ht
      simp only [decide_eq_true_eq]
      intro hkk
      have := w3 t ht
      rw [hkk, hs] at this
      exact Option.noConfusion this
    · rw [List.filter_filter, List.filter_eq_nil_iff]
      intro t ht
      simp only [Bool.and_eq_true, decide_eq_true_eq, not_and]
      intro hkk hid
      have := w3 t ht
      rw [hkk, hs] at this
      exact hid (Option.some.inj this).symm
  rw [hnil]
  simp

theorem elapse_wf (d : Nat) (s : NotifState) (hwf : s.wf) : (elapse d s).wf := hwf

theorem fireTimer_other_kind (s : NotifState) (tid : Nat) (k2 : MsgKind)
    (h : ∀ t ∈ s.pending, t.id = tid → t.kind ≠ k2) :
    (fireTimer tid s).divs k2 = s.divs k2 := by
  simp only [fireTimer]
  cases hf : s.pending.find? (fun t => decide (t.id = tid)) with
  | none => rfl
  | some t =>
    have hmem := List.mem_of_find?_eq_some hf
    have hid : t.id = tid := by simpa using List.find?_some hf
    have hkind : t.kind ≠ k2 := h t hmem hid
    simp only []
    rw [if_neg (fun hEq => hkind hEq.symm)]

/-- Claim C5: the notification mechanism keeps at most one pending
expiry per message kind — calling showMessage twice for the same kind
(from any well-formed state, with any delay between the calls) leaves
exactly one scheduled expiry for that kind, timed from the second call
— and firing a timer whose kind differs from a given kind never touches
that kind's message element. -/
theorem showMessage_single_expiry (s : NotifState) (k : MsgKind)
    (m1 m2 : String) (d1 d2 gap : Nat) (hwf : s.wf) :
    ((showMessage k m2 d2 (elapse gap (showMessage k m1 d1 s))).pending.filter
        (fun t => decide (t.kind = k))) =
      [⟨s.nextTimerId + 1, k, s.now + gap + d2⟩] ∧
    (∀ (s2 : NotifState) (tid : Nat) (k2 : MsgKind),
      (∀ t ∈ s2.pending, t.id = tid → t.kind ≠ k2) →
      (fireTimer tid s2).divs k2 = s2.divs k2) := by
  constructor
  · exact showMessage_pending_kind k m2 d2 (elapse gap (showMessage k m1 d1 s))
      (elapse_wf gap _ (showMessage_wf k m1 d1 s hwf))
  · exact fireTimer_other_kind

theorem showMessage_single_expiry_witness :
    ((showMessage .error "x" 5000 (elapse 1000 (showMessage .error "x" 5000
        ⟨0, 0, [], fun _ => none, fun _ => none⟩))).pending.filter
        (fun t => decide (t.kind = MsgKind.error))) =
      [⟨1, .error, 6000⟩] :=
  (showMessage_single_expiry ⟨0, 0, [], fun _ => none, fun _ => none⟩ .error
    "x" "x" 5000 5000 1000
    ⟨by simp, by simp, by simp⟩).1

theorem dropWhile_all_append (p : Char → Bool) (w l : JStr)
    (hw : ∀ c ∈ w, p c = true) :
    List.dropWhile p (w ++ l) = List.dropWhile p l := by
  induction w with
  | nil => rfl
  | cons a w ih =>
    rw [List.cons_append, List.dropWhile_cons, if_pos (hw a (List.mem_cons_self a w))]
    exact ih fun c hc => hw c (List.mem_cons_of_mem a hc)

theorem splitAtChar_eq (sep : Char) (cs a b : JStr)
    (h : splitAtChar sep cs = some (a, b)) : cs = a ++ sep :: b := by
  induction cs generalizing a with
  | nil => exact absurd h (by simp [splitAtChar])
  | cons c rest ih =>
    simp only [splitAtChar] at h
    by_cases hc : c = sep
    · rw [if_pos hc] at h
      cases h
      rw [hc]
      rfl
    · rw [if_neg hc] at h
      cases hsp : splitAtChar sep rest with
      | none =>
        rw [hsp] at h
        exact absurd h (by simp)
      | some pr =>
        rw [hsp] at h
        rw [show Option.map (fun p => (c :: p.1, p.2)) (some pr) =
          some (c :: pr.1, pr.2) from rfl] at h
        cases h
        have := ih pr.1 (by rw [hsp])
        rw [List.cons_append, ← this]

theorem emailRegexTest_no_ws (cs : JStr) (h : emailRegexTest cs = true) :
    cs ≠ [] ∧ ∀ c ∈ cs, isJsWhitespace c = false := by
  unfold emailRegexTest at h
  cases hsp : splitAtChar '@' cs with
  | none =>
    rw [hsp] at h
    exact absurd h (by simp)
  | some pr =>
    rw [hsp] at h
    obtain ⟨loc, dom⟩ := pr
    simp only [Bool.and_eq_true, List.all_eq_true] at h
    obtain ⟨⟨⟨⟨_, hloc⟩, _⟩, hdom⟩, _⟩ := h
    have hcs := splitAtChar_eq '@' cs loc dom hsp
    subst hcs
    refine ⟨by simp, ?_⟩
    intro c hc
    rw [List.mem_append, List.mem_cons] at hc
    rcases hc with hc | hc | hc
    · have := hloc c hc
      simp only [validLocalChar, Bool.and_eq_true, Bool.not_eq_eq_eq_not,
        Bool.not_true] at this
      exact this.1
    · rw [hc]
      decide
    · have := hdom c hc
      simp only [validLocalChar, Bool.and_eq_true, Bool.not_eq_eq_eq_not,
        Bool.not_true] at this
      exact this.1

theorem trimJs_pad (w1 core w2 : JStr)
    (hw1 : ∀ c ∈ w1, isJsWhitespace c = true)
    (hw2 : ∀ c ∈ w2, isJsWhitespace c = true)
    (hne : core ≠ [])
    (hcore : ∀ c ∈ core, isJsWhitespace c = false) :
    trimJs (w1 ++ core ++ w2) = core := by
  unfold trimJs
  rw [List.append_assoc, dropWhile_all_append _ _ _ hw1]
  have h2 : List.dropWhile isJsWhitespace (core ++ w2) = core ++ w2 := by
    cases core with
    | nil => exact absurd rfl hne
    | cons c0 rest =>
      rw [List.cons_append, List.dropWhile_cons,
        if_neg (by rw [hcore c0 (List.mem_cons_self c0 rest)]; exact Bool.false_ne_true)]
  rw [h2, List.reverse_append]
  rw [dropWhile_all_append _ _ _ (fun c hc => hw2 c (List.mem_reverse.mp hc))]
  have h3 : List.dropWhile isJsWhitespace core.reverse = core.reverse := by
    cases hrev : core.reverse with
    | nil => rfl
    | cons c0 rest =>
      have hc0 : c0 ∈ core := by
        rw [← List.mem_reverse, hrev]
        exact List.mem_cons_self _ _
      rw [List.dropWhile_cons,
        if_neg (by rw [hcore c0 hc0]; exact Bool.false_ne_true)]
  rw [h3, List.reverse_reverse]

/-- Claim C9: isValidEmail trims leading and trailing whitespace before
matching, so a valid address surrounded only by whitespace is accepted
(even though the e-mail pattern itself rejects any string containing
whitespace), and consequently both validateContactForm's email rule and
sendEmail's target-address check accept such padded inputs. -/
theorem isValidEmail_trims (w1 core w2 : JStr)
    (hw1 : ∀ c ∈ w1, isJsWhitespace c = true)
    (hw2 : ∀ c ∈ w2, isJsWhitespace c = true)
    (hcore : emailRegexTest core = true) :
    isValidEmail (some (w1 ++ core ++ w2)) = true ∧
    ((w1 ≠ [] ∨ w2 ≠ []) → emailRegexTest (w1 ++ core ++ w2) = false) ∧
    validateContactForm (some ("Jo".toList)) (some (w1 ++ core ++ w2)) none
        (some ("Acme".toList)) (some ("hi".toList)) =
      .ok ⟨true, ("Jo".toList), core, [], ("Acme".toList), ("hi".toList)⟩ ∧
    (∀ env : BrowserEnv, env.emailjsLoaded = true →
      (sendEmail placeholderConfig env (w1 ++ core ++ w2) [] [] [] []).message =
        some (.info, msgPreviewOnly)) := by
  obtain ⟨hne, hnws⟩ := emailRegexTest_no_ws core hcore
  have htrim : trimJs (w1 ++ core ++ w2) = core := trimJs_pad w1 core w2 hw1 hw2 hne hnws
  have htrimR : trimJs (w1 ++ (core ++ w2)) = core := by
    rw [← List.append_assoc]
    exact htrim
  have hpadne : w1 ++ core ++ w2 ≠ [] := by
    intro hcontra
    rw [List.append_eq_nil, List.append_eq_nil] at hcontra
    exact hne hcontra.1.2
  have hpadE : (w1 ++ core ++ w2).isEmpty = false := by
    cases hp : w1 ++ core ++ w2 with
    | nil => exact absurd hp hpadne
    | cons a t => rfl
  have hvalid : isValidEmail (some (w1 ++ core ++ w2)) = true := by
    simp only [isValidEmail, hpadE, Bool.not_false, Bool.true_and]
    rw [htrim]
    exact hcore
  have hvalidR : isValidEmail (some (w1 ++ (core ++ w2))) = true := by
    rw [← List.append_assoc]
    exact hvalid
  refine ⟨hvalid, ?_, ?_, ?_⟩
  · intro hw
    by_contra hcontra
    rw [Bool.not_eq_false] at hcontra
    obtain ⟨_, hall⟩ := emailRegexTest_no_ws _ hcontra
    rcases hw with hw | hw
    · cases w1 with
      | nil => exact hw rfl
      | cons a t =>
        have hmem : a ∈ (a :: t) ++ core ++ w2 := by simp
        have h1 := hw1 a (List.mem_cons_self a t)
        rw [hall a hmem] at h1
        exact Bool.false_ne_true h1
    · cases w2 with
      | nil => exact hw rfl
      | cons a t =>
        have hmem : a ∈ w1 ++ core ++ (a :: t) := by simp
        have h1 := hw2 a (List.mem_cons_self a t)
        rw [hall a hmem] at h1
        exact Bool.false_ne_true h1
  · have hcoreE : core.isEmpty = false := by
      cases core with
      | nil => exact absurd rfl hne
      | cons a t => rfl
    have hblankPad : fieldBlank (some (w1 ++ core ++ w2)) = false := by
      show ((w1 ++ core ++ w2).isEmpty || (trimJs (w1 ++ core ++ w2)).isEmpty) = false
      rw [hpadE, htrim, hcoreE]
      rfl
    have hblankPadR : fieldBlank (some (w1 ++ (core ++ w2))) = false := by
      rw [← List.append_assoc]
      exact hblankPad
    have e1 : fieldBlank (some ['J', 'o']) = false := by decide
    have e2 : fieldBlank (some ['A', 'c', 'm', 'e']) = false := by decide
    have e3 : fieldBlank (some ['h', 'i']) = false := by decide
    have e4 : fieldBlank (none : Option JStr) = true := rfl
    have e5 : trimJs ['J', 'o'] = ['J', 'o'] := by decide
    have e6 : trimJs ['A', 'c', 'm', 'e'] = ['A', 'c', 'm', 'e'] := by decide
    simp [validateContactForm, optTrim, e1, e2, e3, e4, e5, e6, hblankPad,
      hblankPadR, hvalid, hvalidR, hpadE, htrim, htrimR, hne]
  · intro env henv
    simp [sendEmail, henv, hvalidR, hne,
      show validCredentials placeholderConfig = false from by decide]

theorem isValidEmail_trims_witness :
    isValidEmail (some ((" ".toList) ++ ("a@b.c".toList) ++ ("\n".toList))) = true ∧
    validateContactForm (some ("Jo".toList))
        (some ((" ".toList) ++ ("a@b.c".toList) ++ ("\n".toList))) none
        (some ("Acme".toList)) (some ("hi".toList)) =
      .ok ⟨true, ("Jo".toList), ("a@b.c".toList), [], ("Acme".toList), ("hi".toList)⟩ :=
  ⟨(isValidEmail_trims (" ".toList) ("a@b.c".toList) ("\n".toList)
      (by decide) (by decide) (by decide)).1,
   (isValidEmail_trims (" ".toList) ("a@b.c".toList) ("\n".toList)
      (by decide) (by decide) (by decide)).2.2.1⟩

theorem cssMeta_not_hex (c : Char) (h : cssFallbackMeta c = true) :
    isHexDigitChar c = false := by
  simp only [cssFallbackMeta, cssMetaChars, decide_eq_true_eq, List.mem_cons,
    List.mem_singleton, List.not_mem_nil, or_false] at h
  rcases h with rfl | rfl | rfl | rfl | rfl | rfl | rfl | rfl | rfl | rfl | rfl | rfl |
    rfl | rfl | rfl | rfl | rfl | rfl | rfl | rfl | rfl | rfl | rfl | rfl | rfl | rfl |
    rfl | rfl | rfl | rfl <;> decide

theorem cssUnescape_esc_step (c : Char) (t : JStr) (hx : isHexDigitChar c = false) :
    cssUnescape ('\\' :: c :: t) = c :: cssUnescape t := by
  simp only [cssUnescape]
  simp [hx]

theorem cssUnescape_plain_step (c : Char) (t : JStr) (hb : c ≠ '\\') :
    cssUnescape (c :: t) = c :: cssUnescape t := by
  rw [cssUnescape.eq_def]
  show (if c = '\\' then _ else c :: cssUnescape t) = c :: cssUnescape t
  rw [if_neg hb]

theorem cssUnescape_safeCssEscape (k : JStr) : cssUnescape (safeCssEscape k) = k := by
  induction k with
  | nil => simp [safeCssEscape, cssUnescape]
  | cons c rest ih =>
    by_cases h : cssFallbackMeta c = true
    · simp only [safeCssEscape, List.map_cons, List.flatten_cons, h, if_true]
      rw [List.cons_append, List.cons_append, List.nil_append,
        cssUnescape_esc_step c _ (cssMeta_not_hex c h)]
      exact congrArg (c :: ·) ih
    · have hb : c ≠ '\\' := by
        intro hEq
        rw [hEq] at h
        exact h (by decide)
      rw [Bool.not_eq_true] at h
      simp only [safeCssEscape, List.map_cons, List.flatten_cons, h, Bool.false_eq_true,
        if_false]
      rw [List.singleton_append, cssUnescape_plain_step c _ hb]
      exact congrArg (c :: ·) ih

/-- Claim C4: the lookup key used by the highlight operation agrees
with the tagging key used at render time — developProject tags each
skill element with normalizeSkillKey(s), normalizeSkillKey is
deterministic (equal inputs give equal keys), highlightSkill builds its
selector value from safeCssEscape(normalizeSkillKey(s)), and that
selector value matches exactly the elements whose attribute is
normalizeSkillKey(s). -/
theorem skillKey_selector_agreement (s a : JStr) :
    skillTagKey s = normalizeSkillKey s ∧
    (∀ s2, s2 = s → normalizeSkillKey s2 = normalizeSkillKey s) ∧
    highlightSelectorKey s = safeCssEscape (normalizeSkillKey s) ∧
    (selectorMatches (highlightSelectorKey s) a = true ↔ a = skillTagKey s) := by
  refine ⟨rfl, fun s2 h => by rw [h], rfl, ?_⟩
  simp only [selectorMatches, highlightSelectorKey, skillTagKey,
    cssUnescape_safeCssEscape, decide_eq_true_eq]
  exact eq_comm

theorem skillKey_selector_agreement_witness :
    selectorMatches (highlightSelectorKey ("C++".toList)) ("C%2B%2B".toList) = true :=
  (skillKey_selector_agreement ("C++".toList) ("C%2B%2B".toList)).2.2.2.mpr (by decide)
